import Mathlib

/-!
Verification of the Note Collection State Engine of the geeks-diary
repository, a shallow embedding of
`src/browser/note/note-collection/note-collection.reducer.ts`.

Supporting modules that the reducer imports (`core/sorting`,
`libs/datetime`, `note-collection.state`, `note-collection.actions`,
`note-item.model`) are not part of the corpus; they are modelled from the
specification and marked as such in their doc comments.  JavaScript
runtime failures (property access on `null`) are modelled by `Option`:
a `none` result of the reducer models a thrown `TypeError`.
-/

namespace GeeksDiary

/-! ## Calendar arithmetic: model of the JavaScript `Date` object

A JavaScript `Date` value is modelled as its epoch timestamp in
milliseconds, with the local time zone taken to be UTC. -/

def msPerDay : Int := 86400000

/-- Epoch day number containing the given epoch-millisecond timestamp. -/
def epochDayOfMs (ms : Int) : Int :=
  Int.fdiv ms msPerDay

/-- Gregorian calendar triple (full year, zero-based month, day of month)
of an epoch day number (civil-from-days algorithm). -/
def civilOfDays (z0 : Int) : Int × Int × Int :=
  let z := z0 + 719468
  let era := Int.fdiv z 146097
  let doe := z - era * 146097
  let yoe := Int.fdiv (doe - Int.fdiv doe 1460 + Int.fdiv doe 36524 - Int.fdiv doe 146096) 365
  let y := yoe + era * 400
  let doy := doe - (365 * yoe + Int.fdiv yoe 4 - Int.fdiv yoe 100)
  let mp := Int.fdiv (5 * doy + 2) 153
  let d := doy - Int.fdiv (153 * mp + 2) 5 + 1
  let m := mp + (if mp < 10 then 3 else -9)
  (y + (if m ≤ 2 then 1 else 0), m - 1, d)

/-- Epoch day number of a Gregorian calendar date (days-from-civil
algorithm); `m1` is the one-based month and `d` may lie outside the
nominal month range, rolling over exactly as JavaScript `Date` does. -/
def daysOfCivil (year m1 d : Int) : Int :=
  let y := year - (if m1 ≤ 2 then 1 else 0)
  let era := Int.fdiv y 400
  let yoe := y - era * 400
  let doy := Int.fdiv (153 * (m1 + (if m1 > 2 then -3 else 9)) + 2) 5 + d - 1
  let doe := yoe * 365 + Int.fdiv yoe 4 - Int.fdiv yoe 100 + doy
  era * 146097 + doe - 719468

/-- Model of `date.getFullYear()` on an epoch-millisecond timestamp. -/
def getFullYear (ms : Int) : Int :=
  (civilOfDays (epochDayOfMs ms)).1

/-- Model of `date.getMonth()` (zero-based month). -/
def getMonth (ms : Int) : Int :=
  (civilOfDays (epochDayOfMs ms)).2.1

/-- Model of `date.getDate()` (one-based day of month). -/
def getDate (ms : Int) : Int :=
  (civilOfDays (epochDayOfMs ms)).2.2

/-- Model of the JavaScript constructor `new Date(year, month)`:
out-of-range months roll over into adjacent years. -/
def newDateYM (year month : Int) : Int :=
  msPerDay * daysOfCivil (year + Int.fdiv month 12) (Int.emod month 12 + 1) 1

/-- Model of the JavaScript constructor `new Date(year, month, date)`. -/
def newDateYMD (year month date : Int) : Int :=
  msPerDay * daysOfCivil (year + Int.fdiv month 12) (Int.emod month 12 + 1) date

namespace datetime

/-- Modelled from the spec: `datetime.isAtSameMonth` from `libs/datetime`
(not in the corpus).  True iff the two timestamps fall in the same year
and month of the local calendar. -/
def isAtSameMonth (a b : Int) : Bool :=
  getFullYear a == getFullYear b && getMonth a == getMonth b

/-- Modelled from the spec: `datetime.isSameDay` from `libs/datetime`
(not in the corpus).  True iff the two timestamps fall on the same
calendar year, month and day. -/
def isSameDay (a b : Int) : Bool :=
  isAtSameMonth a b && getDate a == getDate b

end datetime

/-! ## Data model (modelled from the spec where the source is missing) -/

/-- Modelled from the spec: `NoteItem` from `note-item.model.ts` (not in
the corpus): id, title, creation timestamp in epoch milliseconds, stack
identifiers, content file descriptors and an optional label. -/
structure NoteItem where
  id : String
  title : String
  createdDatetime : Int
  stackIds : List String
  contentFileName : String
  contentFilePath : String
  label : Option String
deriving DecidableEq

/-- Modelled from the spec: the filter discriminator
`NoteCollectionFilterBy` from `note-collection.state.ts` (not in the
corpus), with the default (pass-through) mode written `NONE`. -/
inductive NoteCollectionFilterBy
  | BY_MONTH
  | BY_DATE
  | NONE
deriving DecidableEq

/-- Modelled from the spec: `NoteCollectionSortBy` from
`note-collection.state.ts` (not in the corpus). -/
inductive NoteCollectionSortBy
  | CREATED
  | TITLE
deriving DecidableEq

/-- Modelled from the spec: the sort direction used by the `Sorting`
ordering strategy of `core/sorting` (not in the corpus). -/
inductive SortDirection
  | ASC
  | DESC
deriving DecidableEq

/-- Modelled from the spec: `NoteCollectionViewModes` from
`note-collection.state.ts` (not in the corpus); an opaque display-mode
flag that never influences notes, filtering, sorting or selection. -/
inductive NoteCollectionViewModes
  | VIEW_FULL
  | VIEW_NOTE_ONLY
deriving DecidableEq

/-- Modelled from the spec: the opaque contribution aggregate replaced
wholesale by `UPDATE_CONTRIBUTION` (type not in the corpus). -/
structure NoteContributionTable where
  contributes : List (String × Int)
deriving DecidableEq

/-- Modelled from the spec: the month selector `{year, month}` stored in
`selectedMonth` (zero-based month, as produced by `getMonth`). -/
structure MonthFilter where
  year : Int
  month : Int
deriving DecidableEq

/-- Modelled from the spec: the date selector `{year, month, date}`
stored in `selectedDate`. -/
structure DateFilter where
  year : Int
  month : Int
  date : Int
deriving DecidableEq

/-- Modelled from the spec: `NoteCollectionState` from
`note-collection.state.ts` (not in the corpus).  Nullable fields are
`Option`s. -/
structure NoteCollectionState where
  loading : Bool
  loaded : Bool
  notes : List NoteItem
  filteredAndSortedNotes : List NoteItem
  selectedMonth : Option MonthFilter
  selectedDate : Option DateFilter
  selectedNote : Option NoteItem
  filterBy : NoteCollectionFilterBy
  sortBy : NoteCollectionSortBy
  sortDirection : SortDirection
  viewMode : NoteCollectionViewModes
  contribution : Option NoteContributionTable
deriving DecidableEq

/-- Modelled from the spec: `createNoteCollectionInitialState` from
`note-collection.state.ts` (not in the corpus): the empty, unloaded,
unfiltered default snapshot. -/
def createNoteCollectionInitialState : NoteCollectionState :=
  { loading := false
    loaded := false
    notes := []
    filteredAndSortedNotes := []
    selectedMonth := none
    selectedDate := none
    selectedNote := none
    filterBy := NoteCollectionFilterBy.NONE
    sortBy := NoteCollectionSortBy.CREATED
    sortDirection := SortDirection.DESC
    viewMode := NoteCollectionViewModes.VIEW_FULL
    contribution := none }

/-- Modelled from the spec: the command payloads of
`note-collection.actions.ts` (not in the corpus), with the payload
fields the reducer actually reads.  `Date` payloads are epoch
milliseconds. -/
inductive NoteCollectionAction
  | loadCollection
  | loadCollectionComplete (notes : List NoteItem)
  | selectDateFilter (date : Int)
  | selectMonthFilter (date : Int)
  | changeSortOrder (sortBy : NoteCollectionSortBy)
  | changeSortDirection (sortDirection : SortDirection)
  | changeViewMode (viewMode : NoteCollectionViewModes)
  | selectNote (note : NoteItem)
  | deselectNote
  | addNote (note : NoteItem)
  | updateContribution (contribution : NoteContributionTable)
  | changeNoteTitle (note : NoteItem) (title contentFilePath contentFileName : String)
  | deleteNote (note : NoteItem)
  | changeNoteStacks (note : NoteItem) (stackIds : List String)
deriving DecidableEq

/-! ## Ordering strategy -/

/-- Insert `a` into `l`, before the first element `b` with `le a b`;
for equal keys this keeps `a` in front, which together with
`stableSortBy` below yields a stable sort. -/
def orderedInsert (le : NoteItem → NoteItem → Bool) (a : NoteItem) :
    List NoteItem → List NoteItem
  | [] => [a]
  | b :: l => if le a b then a :: b :: l else b :: orderedInsert le a l

/-- Stable insertion sort over notes by a boolean comparator. -/
def stableSortBy (le : NoteItem → NoteItem → Bool) : List NoteItem → List NoteItem
  | [] => []
  | a :: l => orderedInsert le a (stableSortBy le l)

/-- Modelled from the spec: the `Sorting` ordering strategy of
`core/sorting` (not in the corpus): a stable sort of the list by the key
selected through `sortBy`, where direction `DESC` is the comparator of
`ASC` with its sign flipped. -/
def sortNotes (sortBy : NoteCollectionSortBy) (direction : SortDirection)
    (notes : List NoteItem) : List NoteItem :=
  let le : NoteItem → NoteItem → Bool :=
    match sortBy, direction with
    | NoteCollectionSortBy.CREATED, SortDirection.ASC =>
        fun a b => a.createdDatetime ≤ b.createdDatetime
    | NoteCollectionSortBy.CREATED, SortDirection.DESC =>
        fun a b => b.createdDatetime ≤ a.createdDatetime
    | NoteCollectionSortBy.TITLE, SortDirection.ASC =>
        fun a b => decide (a.title ≤ b.title)
    | NoteCollectionSortBy.TITLE, SortDirection.DESC =>
        fun a b => decide (b.title ≤ a.title)
  stableSortBy le notes

/-! ## The reducer, translated from `note-collection.reducer.ts` -/

/-- Patch sent to `withNoteUpdate`, modelling the `Partial<NoteItem>`
object literals built in the `CHANGE_NOTE_TITLE` and
`CHANGE_NOTE_STACKS` branches of the reducer. -/
structure NotePatch where
  title : Option String
  contentFilePath : Option String
  contentFileName : Option String
  stackIds : Option (List String)

/-- Object-spread application `\x7b ...note, ...patch \x7d` for the
fields a `NotePatch` can carry. -/
def NoteItem.applyPatch (note : NoteItem) (patch : NotePatch) : NoteItem :=
  { note with
    title := patch.title.getD note.title
    contentFilePath := patch.contentFilePath.getD note.contentFilePath
    contentFileName := patch.contentFileName.getD note.contentFileName
    stackIds := patch.stackIds.getD note.stackIds }

/-- Entry of `state.notes` at a JavaScript index, where `none` models the
index `-1` returned by `findIndex` (so the lookup is `undefined`). -/
def noteAtIndex (state : NoteCollectionState) (index : Option Nat) : Option NoteItem :=
  match index with
  | none => none
  | some i => state.notes[i]?

/-- Translation of `isIndexOfNoteIsSelectedNote`: false when the entry is
`undefined` or nothing is selected, otherwise compares ids. -/
def isIndexOfNoteIsSelectedNote (state : NoteCollectionState) (index : Option Nat) : Bool :=
  match noteAtIndex state index, state.selectedNote with
  | some note, some selected => note.id == selected.id
  | _, _ => false

/-- Translation of `getIndexOfNote`: `Array.prototype.findIndex` over
`state.notes`, with `none` modelling the not-found result `-1`. -/
def getIndexOfNote (state : NoteCollectionState) (targetNote : NoteItem) : Option Nat :=
  state.notes.findIdx? (fun note => note.id == targetNote.id)

/-- Filtering phase of `withFilteredAndSortedNotes` (the `switch` on
`state.filterBy`).  Reading `.year` on a `null` selector throws in
JavaScript; that failure is the `none` result. -/
def filteredNotesOf (state : NoteCollectionState) : Option (List NoteItem) :=
  match state.filterBy with
  | NoteCollectionFilterBy.BY_MONTH =>
      match state.selectedMonth with
      | none => none
      | some sel =>
          let filterSource := newDateYM sel.year sel.month
          some (state.notes.filter fun note =>
            datetime.isAtSameMonth filterSource note.createdDatetime)
  | NoteCollectionFilterBy.BY_DATE =>
      match state.selectedDate with
      | none => none
      | some sel =>
          let filterSource := newDateYMD sel.year sel.month sel.date
          some (state.notes.filter fun note =>
            datetime.isSameDay filterSource note.createdDatetime)
  | NoteCollectionFilterBy.NONE => some state.notes

/-- Translation of `withFilteredAndSortedNotes`: filter by the active
filter, sort by the active sort key and direction, and store the result
in `filteredAndSortedNotes`. -/
def withFilteredAndSortedNotes (state : NoteCollectionState) : Option NoteCollectionState :=
  (filteredNotesOf state).map fun notes =>
    { state with
      filteredAndSortedNotes := sortNotes state.sortBy state.sortDirection notes }

/-- Translation of `withNoteUpdate`: patch the entry at `index`, and
mirror the patch into `selectedNote` when that entry is selected;
no-op when the entry is `undefined`. -/
def withNoteUpdate (state : NoteCollectionState) (index : Option Nat)
    (patch : NotePatch) : NoteCollectionState :=
  match index with
  | none => state
  | some i =>
      match state.notes[i]? with
      | none => state
      | some target =>
          let notes := state.notes.set i (target.applyPatch patch)
          if isIndexOfNoteIsSelectedNote state index then
            { state with
              selectedNote := state.selectedNote.map fun selected => selected.applyPatch patch
              notes := notes }
          else
            { state with notes := notes }

/-- Translation of `withNoteDelete`: splice the entry at `deleteIndex`
out of `notes`, clearing `selectedNote` when that entry was selected;
no-op when the entry is `undefined`. -/
def withNoteDelete (state : NoteCollectionState) (deleteIndex : Option Nat) :
    NoteCollectionState :=
  match deleteIndex with
  | none => state
  | some i =>
      match state.notes[i]? with
      | none => state
      | some _ =>
          let notes := state.notes.eraseIdx i
          if isIndexOfNoteIsSelectedNote state deleteIndex then
            { state with selectedNote := none, notes := notes }
          else
            { state with notes := notes }

/-- Translation of `noteCollectionReducer`.  A `none` result models an
exception escaping to the caller (the only source is the `null` selector
access inside `withFilteredAndSortedNotes`). -/
def noteCollectionReducer (state : NoteCollectionState) (action : NoteCollectionAction) :
    Option NoteCollectionState :=
  match action with
  | NoteCollectionAction.loadCollection =>
      some { state with loading := true }
  | NoteCollectionAction.loadCollectionComplete notes =>
      withFilteredAndSortedNotes
        { state with loading := false, loaded := true, notes := notes }
  | NoteCollectionAction.selectDateFilter date =>
      withFilteredAndSortedNotes
        { state with
          filterBy := NoteCollectionFilterBy.BY_DATE
          selectedDate := some
            { year := getFullYear date, month := getMonth date, date := getDate date } }
  | NoteCollectionAction.selectMonthFilter date =>
      withFilteredAndSortedNotes
        { state with
          filterBy := NoteCollectionFilterBy.BY_MONTH
          selectedMonth := some { year := getFullYear date, month := getMonth date }
          selectedDate := none }
  | NoteCollectionAction.changeSortOrder sortBy =>
      withFilteredAndSortedNotes { state with sortBy := sortBy }
  | NoteCollectionAction.changeSortDirection sortDirection =>
      withFilteredAndSortedNotes { state with sortDirection := sortDirection }
  | NoteCollectionAction.changeViewMode viewMode =>
      some { state with viewMode := viewMode }
  | NoteCollectionAction.selectNote note =>
      some { state with selectedNote := some note }
  | NoteCollectionAction.deselectNote =>
      some { state with selectedNote := none }
  | NoteCollectionAction.addNote note =>
      withFilteredAndSortedNotes { state with notes := state.notes ++ [note] }
  | NoteCollectionAction.updateContribution contribution =>
      some { state with contribution := some contribution }
  | NoteCollectionAction.changeNoteTitle note title contentFilePath contentFileName =>
      withFilteredAndSortedNotes
        (withNoteUpdate state (getIndexOfNote state note)
          { title := some title
            contentFilePath := some contentFilePath
            contentFileName := some contentFileName
            stackIds := none })
  | NoteCollectionAction.deleteNote note =>
      withFilteredAndSortedNotes (withNoteDelete state (getIndexOfNote state note))
  | NoteCollectionAction.changeNoteStacks note newStackIds =>
      withFilteredAndSortedNotes
        (withNoteUpdate state (getIndexOfNote state note)
          { title := none, contentFilePath := none, contentFileName := none
            stackIds := some newStackIds })

/-! ## Reachability -/

/-- Apply a sequence of commands from a starting snapshot; `none` as
soon as one command throws. -/
def applyActions (state : NoteCollectionState) :
    List NoteCollectionAction → Option NoteCollectionState
  | [] => some state
  | action :: rest =>
      match noteCollectionReducer state action with
      | none => none
      | some next => applyActions next rest

/-- Snapshots reachable from the initial state by some command sequence. -/
def Reachable (state : NoteCollectionState) : Prop :=
  ∃ actions, applyActions createNoteCollectionInitialState actions = some state

/-- List of note ids, in collection order. -/
def noteIds (notes : List NoteItem) : List String :=
  notes.map NoteItem.id

/-! ## Derived-view freshness -/

/-- The stored derived view equals its recomputation from the canonical
`notes` under the active filter and sort configuration. -/
def DerivedFresh (s : NoteCollectionState) : Prop :=
  (filteredNotesOf s).map (fun notes => sortNotes s.sortBy s.sortDirection notes)
    = some s.filteredAndSortedNotes

lemma withF_eq_some {s s' : NoteCollectionState}
    (h : withFilteredAndSortedNotes s = some s') :
    ∃ ns, filteredNotesOf s = some ns ∧
      s' = { s with filteredAndSortedNotes := sortNotes s.sortBy s.sortDirection ns } := by
  unfold withFilteredAndSortedNotes at h
  cases hfn : filteredNotesOf s with
  | none => rw [hfn] at h; simp at h
  | some ns =>
      rw [hfn] at h
      simp only [Option.map_some', Option.some.injEq] at h
      exact ⟨ns, rfl, h.symm⟩

lemma derivedFresh_of_withF {s s' : NoteCollectionState}
    (h : withFilteredAndSortedNotes s = some s') : DerivedFresh s' := by
  obtain ⟨ns, hfn, rfl⟩ := withF_eq_some h
  show (filteredNotesOf s).map (fun notes => sortNotes s.sortBy s.sortDirection notes)
      = some (sortNotes s.sortBy s.sortDirection ns)
  rw [hfn]
  rfl

lemma withF_of_fresh {s : NoteCollectionState} (h : DerivedFresh s) :
    withFilteredAndSortedNotes s = some s := by
  unfold DerivedFresh at h
  unfold withFilteredAndSortedNotes
  cases hfn : filteredNotesOf s with
  | none => rw [hfn] at h; simp at h
  | some ns =>
      rw [hfn] at h
      simp only [Option.map_some', Option.some.injEq] at h
      simp only [Option.map_some', Option.some.injEq]
      rw [h]

lemma reducer_preserves_derivedFresh {s s' : NoteCollectionState}
    {a : NoteCollectionAction}
    (hs : DerivedFresh s) (h : noteCollectionReducer s a = some s') : DerivedFresh s' := by
  cases a with
  | loadCollection =>
      simp only [noteCollectionReducer, Option.some.injEq] at h
      subst h; exact hs
  | changeViewMode viewMode =>
      simp only [noteCollectionReducer, Option.some.injEq] at h
      subst h; exact hs
  | selectNote note =>
      simp only [noteCollectionReducer, Option.some.injEq] at h
      subst h; exact hs
  | deselectNote =>
      simp only [noteCollectionReducer, Option.some.injEq] at h
      subst h; exact hs
  | updateContribution contribution =>
      simp only [noteCollectionReducer, Option.some.injEq] at h
      subst h; exact hs
  | loadCollectionComplete notes => exact derivedFresh_of_withF h
  | selectDateFilter date => exact derivedFresh_of_withF h
  | selectMonthFilter date => exact derivedFresh_of_withF h
  | changeSortOrder sortBy => exact derivedFresh_of_withF h
  | changeSortDirection sortDirection => exact derivedFresh_of_withF h
  | addNote note => exact derivedFresh_of_withF h
  | changeNoteTitle note title contentFilePath contentFileName =>
      exact derivedFresh_of_withF h
  | deleteNote note => exact derivedFresh_of_withF h
  | changeNoteStacks note newStackIds => exact derivedFresh_of_withF h

lemma derivedFresh_init : DerivedFresh createNoteCollectionInitialState := by
  unfold DerivedFresh
  rfl

lemma applyActions_derivedFresh {acts : List NoteCollectionAction} :
    ∀ {s s' : NoteCollectionState},
      DerivedFresh s → applyActions s acts = some s' → DerivedFresh s' := by
  induction acts with
  | nil =>
      intro s s' hs h
      simp only [applyActions, Option.some.injEq] at h
      subst h; exact hs
  | cons a rest ih =>
      intro s s' hs h
      unfold applyActions at h
      cases hr : noteCollectionReducer s a with
      | none => rw [hr] at h; simp at h
      | some t =>
          rw [hr] at h
          exact ih (reducer_preserves_derivedFresh hs hr) h

lemma reachable_derivedFresh {s : NoteCollectionState} (h : Reachable s) :
    DerivedFresh s := by
  obtain ⟨acts, hacts⟩ := h
  exact applyActions_derivedFresh derivedFresh_init hacts

/-! ## Index lookup lemmas -/

lemma getIndexOfNote_eq_none {s : NoteCollectionState} {n : NoteItem}
    (h : n.id ∉ noteIds s.notes) : getIndexOfNote s n = none := by
  unfold getIndexOfNote
  rw [List.findIdx?_eq_none_iff]
  intro x hx
  have hxid : x.id ≠ n.id := by
    intro hcontra
    exact h (hcontra ▸ List.mem_map_of_mem NoteItem.id hx)
  simpa using hxid

lemma getIndexOfNote_spec {s : NoteCollectionState} {n : NoteItem} {i : Nat}
    (h : getIndexOfNote s n = some i) :
    ∃ target, s.notes[i]? = some target ∧ target.id = n.id := by
  unfold getIndexOfNote at h
  rw [List.findIdx?_eq_some_iff_findIdx_eq] at h
  obtain ⟨hlen, hfind⟩ := h
  rw [List.findIdx_eq hlen] at hfind
  exact ⟨s.notes[i], List.getElem?_eq_getElem hlen, by simpa using hfind.1⟩

lemma getIndexOfNote_isSome {s : NoteCollectionState} {n : NoteItem}
    (hmem : n.id ∈ noteIds s.notes) : ∃ i, getIndexOfNote s n = some i := by
  unfold noteIds at hmem
  rw [List.mem_map] at hmem
  obtain ⟨x, hx, hxid⟩ := hmem
  refine ⟨_, List.findIdx?_eq_some_of_exists ⟨x, hx, ?_⟩⟩
  simpa using hxid

/-! ## Update and delete mechanics -/

lemma isIndexOfNote_eval {s : NoteCollectionState} {i : Nat} {target : NoteItem}
    (htarget : s.notes[i]? = some target) :
    isIndexOfNoteIsSelectedNote s (some i)
      = match s.selectedNote with
        | some selected => target.id == selected.id
        | none => false := by
  unfold isIndexOfNoteIsSelectedNote noteAtIndex
  simp only []
  rw [htarget]
  cases s.selectedNote <;> rfl

lemma withNoteUpdate_spec {s : NoteCollectionState} {i : Nat} {target : NoteItem}
    (htarget : s.notes[i]? = some target) (patch : NotePatch) :
    withNoteUpdate s (some i) patch =
      if isIndexOfNoteIsSelectedNote s (some i) then
        { s with
          selectedNote := s.selectedNote.map fun selected => selected.applyPatch patch
          notes := s.notes.set i (target.applyPatch patch) }
      else
        { s with notes := s.notes.set i (target.applyPatch patch) } := by
  unfold withNoteUpdate
  simp only []
  rw [htarget]

lemma withNoteDelete_spec {s : NoteCollectionState} {i : Nat} {target : NoteItem}
    (htarget : s.notes[i]? = some target) :
    withNoteDelete s (some i) =
      if isIndexOfNoteIsSelectedNote s (some i) then
        { s with selectedNote := none, notes := s.notes.eraseIdx i }
      else
        { s with notes := s.notes.eraseIdx i } := by
  unfold withNoteDelete
  simp only []
  rw [htarget]

/-- Consistency of the filter configuration: an active filter mode has
its selector value set. -/
def FilterConfigConsistent (s : NoteCollectionState) : Prop :=
  (s.filterBy = NoteCollectionFilterBy.BY_MONTH → s.selectedMonth ≠ none)
  ∧ (s.filterBy = NoteCollectionFilterBy.BY_DATE → s.selectedDate ≠ none)

lemma withF_some_of_consistent {s : NoteCollectionState}
    (hm : s.filterBy = NoteCollectionFilterBy.BY_MONTH → s.selectedMonth ≠ none)
    (hd : s.filterBy = NoteCollectionFilterBy.BY_DATE → s.selectedDate ≠ none) :
    ∃ s', withFilteredAndSortedNotes s = some s'
      ∧ s'.notes = s.notes ∧ s'.selectedNote = s.selectedNote := by
  have hfn : filteredNotesOf s ≠ none := by
    unfold filteredNotesOf
    cases hfb : s.filterBy with
    | BY_MONTH =>
        cases hsm : s.selectedMonth with
        | none => exact absurd hsm (hm hfb)
        | some sel => simp
    | BY_DATE =>
        cases hsd : s.selectedDate with
        | none => exact absurd hsd (hd hfb)
        | some sel => simp
    | NONE => simp
  obtain ⟨ns, hns⟩ := Option.ne_none_iff_exists.mp hfn
  refine ⟨{ s with filteredAndSortedNotes := sortNotes s.sortBy s.sortDirection ns },
    ?_, rfl, rfl⟩
  unfold withFilteredAndSortedNotes
  rw [← hns]
  rfl

lemma not_mem_noteIds_eraseIdx {notes : List NoteItem} {i : Nat} {target : NoteItem}
    (hnd : (noteIds notes).Nodup) (htarget : notes[i]? = some target) :
    target.id ∉ noteIds (notes.eraseIdx i) := by
  obtain ⟨hilen, rfl⟩ := List.getElem?_eq_some_iff.mp htarget
  simp only [noteIds] at hnd ⊢
  have hlen' : i < (List.map NoteItem.id notes).length := by simpa using hilen
  have hids : List.map NoteItem.id notes
      = (List.map NoteItem.id notes).take i
        ++ notes[i].id :: (List.map NoteItem.id notes).drop (i + 1) := by
    conv_lhs => rw [← List.take_append_drop i (List.map NoteItem.id notes),
      List.drop_eq_getElem_cons hlen']
    simp
  rw [hids, List.nodup_append] at hnd
  obtain ⟨h1, h2, hdisj⟩ := hnd
  rw [List.eraseIdx_eq_take_drop_succ, List.map_append, List.mem_append,
    List.map_take, List.map_drop]
  rintro (hmem | hmem)
  · exact hdisj hmem (List.mem_cons_self _ _)
  · exact (List.nodup_cons.mp h2).1 hmem

lemma mem_noteIds_eraseIdx_of_later {notes : List NoteItem} {i j : Nat} {dup : NoteItem}
    (hij : i < j) (hdup : notes[j]? = some dup) :
    dup.id ∈ noteIds (notes.eraseIdx i) := by
  have hj : (notes.eraseIdx i)[j - 1]? = some dup := by
    rw [List.getElem?_eraseIdx, if_neg (by omega), show j - 1 + 1 = j from by omega, hdup]
  obtain ⟨hlt, hget⟩ := List.getElem?_eq_some_iff.mp hj
  exact List.mem_map_of_mem NoteItem.id (hget ▸ List.getElem_mem hlt)

/-! ## Shared concrete notes for witnesses and counterexamples -/

/-- Concrete note used by witnesses. -/
def demoNote : NoteItem :=
  { id := "a", title := "Alpha", createdDatetime := 0, stackIds := []
    contentFileName := "a.md", contentFilePath := "/w/a.md", label := none }

/-- Concrete note with an id distinct from `demoNote`. -/
def demoNoteB : NoteItem :=
  { id := "b", title := "Beta", createdDatetime := 86400000, stackIds := []
    contentFileName := "b.md", contentFilePath := "/w/b.md", label := none }

/-- Copy of `demoNote` with the same id but a different title. -/
def demoNoteStale : NoteItem :=
  { id := "a", title := "Stale", createdDatetime := 0, stackIds := []
    contentFileName := "a.md", contentFilePath := "/w/a.md", label := none }

/-! ## C1: derived-view freshness -/

/-- C1: for every state reachable from the initial state via any
sequence of commands, the stored `filteredAndSortedNotes` equals the
result of recomputing it from the canonical `notes`: apply the filter
predicate selected by `filterBy` (using `selectedMonth` for BY_MONTH,
`selectedDate` for BY_DATE, all notes for NONE) to `notes`, then order
the result by `sortBy` and `sortDirection`. -/
theorem C1_derived_view_fresh (s : NoteCollectionState) (h : Reachable s) :
    (filteredNotesOf s).map (fun notes => sortNotes s.sortBy s.sortDirection notes)
      = some s.filteredAndSortedNotes :=
  reachable_derivedFresh h

theorem C1_derived_view_fresh_witness :
    (filteredNotesOf createNoteCollectionInitialState).map
        (fun notes =>
          sortNotes createNoteCollectionInitialState.sortBy
            createNoteCollectionInitialState.sortDirection notes)
      = some createNoteCollectionInitialState.filteredAndSortedNotes :=
  C1_derived_view_fresh createNoteCollectionInitialState ⟨[], rfl⟩

/-! ## C4: update and delete of an absent id -/

/-- State with an active month filter but no month selector; unreachable
but a legal value of the state type. -/
def byMonthUnsetState : NoteCollectionState :=
  { createNoteCollectionInitialState with filterBy := NoteCollectionFilterBy.BY_MONTH }

/-- C4 counterexample: on a state whose `filterBy` is BY_MONTH while
`selectedMonth` is null, DeleteNote of an id absent from `notes` does not
return the unchanged state: the recomputation throws (the `none` result),
so the claim fails for arbitrary states. -/
theorem C4_counterexample :
    demoNote.id ∉ noteIds byMonthUnsetState.notes
    ∧ noteCollectionReducer byMonthUnsetState
        (NoteCollectionAction.deleteNote demoNote) = none :=
  ⟨by decide, rfl⟩

/-- C4 (amended): for every reachable state and every ChangeNoteTitle,
ChangeNoteStacks or DeleteNote command whose payload id does not occur in
`notes`, the reducer returns (without error) a state equal to the input
state. -/
theorem C4_amended_absent_id_noop (s : NoteCollectionState) (n : NoteItem)
    (title contentFilePath contentFileName : String) (stackIds : List String)
    (hreach : Reachable s) (habs : n.id ∉ noteIds s.notes) :
    noteCollectionReducer s
        (NoteCollectionAction.changeNoteTitle n title contentFilePath contentFileName)
      = some s
    ∧ noteCollectionReducer s (NoteCollectionAction.changeNoteStacks n stackIds) = some s
    ∧ noteCollectionReducer s (NoteCollectionAction.deleteNote n) = some s := by
  have hfresh := reachable_derivedFresh hreach
  have hidx := getIndexOfNote_eq_none habs
  have hW := withF_of_fresh hfresh
  refine ⟨?_, ?_, ?_⟩
  · show withFilteredAndSortedNotes
      (withNoteUpdate s (getIndexOfNote s n)
        { title := some title, contentFilePath := some contentFilePath
          contentFileName := some contentFileName, stackIds := none }) = some s
    rw [hidx]
    exact hW
  · show withFilteredAndSortedNotes
      (withNoteUpdate s (getIndexOfNote s n)
        { title := none, contentFilePath := none, contentFileName := none
          stackIds := some stackIds }) = some s
    rw [hidx]
    exact hW
  · show withFilteredAndSortedNotes (withNoteDelete s (getIndexOfNote s n)) = some s
    rw [hidx]
    exact hW

theorem C4_amended_absent_id_noop_witness :
    noteCollectionReducer createNoteCollectionInitialState
        (NoteCollectionAction.changeNoteTitle demoNote "T" "p" "f")
      = some createNoteCollectionInitialState
    ∧ noteCollectionReducer createNoteCollectionInitialState
        (NoteCollectionAction.changeNoteStacks demoNote ["s1"])
      = some createNoteCollectionInitialState
    ∧ noteCollectionReducer createNoteCollectionInitialState
        (NoteCollectionAction.deleteNote demoNote)
      = some createNoteCollectionInitialState :=
  C4_amended_absent_id_noop createNoteCollectionInitialState demoNote "T" "p" "f" ["s1"]
    ⟨[], rfl⟩ (by decide)

/-! ## C5: deleting the selected note -/

/-- State holding two copies of `demoNote`, with `demoNote` selected. -/
def dupSelectedState : NoteCollectionState :=
  { createNoteCollectionInitialState with
    notes := [demoNote, demoNote]
    filteredAndSortedNotes := [demoNote, demoNote]
    selectedNote := some demoNote }

/-- C5 counterexample: with duplicate entries of the selected id,
DeleteNote of the selected note clears the selection but removes only the
first entry, so an entry with that id remains in `notes`, contradicting
the claim that no entry carries it afterwards. -/
theorem C5_counterexample :
    dupSelectedState.selectedNote = some demoNote
    ∧ (noteCollectionReducer dupSelectedState
          (NoteCollectionAction.deleteNote demoNote)).map
        (fun t => (t.selectedNote, decide (demoNote.id ∈ noteIds t.notes)))
      = some (none, true) :=
  ⟨rfl, by decide⟩

/-- C5 (amended): on a state with a consistent filter configuration and
pairwise distinct note ids, deleting a note whose id equals the selected
id and occurs in `notes` yields a state with `selectedNote = null` in
which that id no longer occurs; deleting a note whose id differs from the
selected id leaves `selectedNote` unchanged. -/
theorem C5_amended_delete_selected (s : NoteCollectionState) (sel n : NoteItem)
    (hsel : s.selectedNote = some sel)
    (hcfg : FilterConfigConsistent s)
    (hnd : (noteIds s.notes).Nodup) :
    (n.id = sel.id → n.id ∈ noteIds s.notes →
      (noteCollectionReducer s (NoteCollectionAction.deleteNote n)).map
          (fun t => (t.selectedNote, decide (n.id ∈ noteIds t.notes)))
        = some (none, false))
    ∧ (n.id ≠ sel.id →
      (noteCollectionReducer s (NoteCollectionAction.deleteNote n)).map
          (fun t => t.selectedNote)
        = some (some sel)) := by
  constructor
  · intro heq hmem
    obtain ⟨i, hi⟩ := getIndexOfNote_isSome hmem
    obtain ⟨target, htarget, htid⟩ := getIndexOfNote_spec hi
    have hseltrue : isIndexOfNoteIsSelectedNote s (some i) = true := by
      rw [isIndexOfNote_eval htarget, hsel]
      simp [htid, heq]
    have hdel : withNoteDelete s (some i)
        = { s with selectedNote := none, notes := s.notes.eraseIdx i } := by
      rw [withNoteDelete_spec htarget, hseltrue]
      simp
    obtain ⟨s', hs', hnotes, hselnote⟩ := withF_some_of_consistent
      (s := { s with selectedNote := none, notes := s.notes.eraseIdx i })
      (fun h => hcfg.1 h) (fun h => hcfg.2 h)
    show (withFilteredAndSortedNotes (withNoteDelete s (getIndexOfNote s n))).map
        (fun t => (t.selectedNote, decide (n.id ∈ noteIds t.notes)))
      = some (none, false)
    rw [hi, hdel, hs']
    simp only [Option.map_some']
    have hnotmem : n.id ∉ noteIds (s.notes.eraseIdx i) :=
      htid ▸ not_mem_noteIds_eraseIdx hnd htarget
    rw [hselnote, hnotes]
    simp [hnotmem]
  · intro hne
    cases hidx : getIndexOfNote s n with
    | none =>
        obtain ⟨s', hs', hnotes, hselnote⟩ := withF_some_of_consistent
          (s := s) (fun h => hcfg.1 h) (fun h => hcfg.2 h)
        show (withFilteredAndSortedNotes (withNoteDelete s (getIndexOfNote s n))).map
            (fun t => t.selectedNote) = some (some sel)
        rw [hidx]
        show (withFilteredAndSortedNotes s).map (fun t => t.selectedNote) = some (some sel)
        rw [hs']
        simp only [Option.map_some']
        rw [hselnote, hsel]
    | some i =>
        obtain ⟨target, htarget, htid⟩ := getIndexOfNote_spec hidx
        have hselfalse : isIndexOfNoteIsSelectedNote s (some i) = false := by
          rw [isIndexOfNote_eval htarget, hsel]
          simp [htid]
          exact hne
        have hdel : withNoteDelete s (some i)
            = { s with notes := s.notes.eraseIdx i } := by
          rw [withNoteDelete_spec htarget, hselfalse]
          simp
        obtain ⟨s', hs', hnotes, hselnote⟩ := withF_some_of_consistent
          (s := { s with notes := s.notes.eraseIdx i })
          (fun h => hcfg.1 h) (fun h => hcfg.2 h)
        show (withFilteredAndSortedNotes (withNoteDelete s (getIndexOfNote s n))).map
            (fun t => t.selectedNote) = some (some sel)
        rw [hidx, hdel, hs']
        simp only [Option.map_some']
        rw [hselnote]
        exact congrArg some hsel

/-- State holding `demoNote` and `demoNoteB`, with `demoNote` selected. -/
def twoNoteSelectedState : NoteCollectionState :=
  { createNoteCollectionInitialState with
    notes := [demoNote, demoNoteB]
    filteredAndSortedNotes := [demoNoteB, demoNote]
    selectedNote := some demoNote }

theorem C5_amended_delete_selected_witness :
    (noteCollectionReducer twoNoteSelectedState
        (NoteCollectionAction.deleteNote demoNote)).map
      (fun t => (t.selectedNote, decide (demoNote.id ∈ noteIds t.notes)))
    = some (none, false) :=
  (C5_amended_delete_selected twoNoteSelectedState demoNote demoNote rfl
    ⟨(fun h => nomatch h), (fun h => nomatch h)⟩ (by decide)).1 rfl (by decide)

/-! ## C6: patch semantics of ChangeNoteTitle and ChangeNoteStacks -/

lemma withNoteUpdate_notes {s : NoteCollectionState} {i : Nat} {target : NoteItem}
    (htarget : s.notes[i]? = some target) (patch : NotePatch) :
    (withNoteUpdate s (some i) patch).notes = s.notes.set i (target.applyPatch patch) := by
  rw [withNoteUpdate_spec htarget]
  split <;> rfl

lemma withNoteDelete_notes {s : NoteCollectionState} {i : Nat} {target : NoteItem}
    (htarget : s.notes[i]? = some target) :
    (withNoteDelete s (some i)).notes = s.notes.eraseIdx i := by
  rw [withNoteDelete_spec htarget]
  split <;> rfl

/-- C6: when the payload id of ChangeNoteTitle occurs in `notes` (first
match at index `i` with entry `target`), the command replaces exactly
`title`, `contentFilePath` and `contentFileName` of that entry, leaving
all other entries and fields unchanged; the identical patch is mirrored
into `selectedNote` exactly when a note with the payload id is selected;
ChangeNoteStacks behaves the same way for `stackIds`. -/
theorem C6_patch_semantics (s : NoteCollectionState) (n target : NoteItem) (i : Nat)
    (title contentFilePath contentFileName : String) (stackIds : List String)
    (s1 s2 : NoteCollectionState)
    (hidx : getIndexOfNote s n = some i)
    (htarget : s.notes[i]? = some target)
    (h1 : noteCollectionReducer s
      (NoteCollectionAction.changeNoteTitle n title contentFilePath contentFileName)
      = some s1)
    (h2 : noteCollectionReducer s (NoteCollectionAction.changeNoteStacks n stackIds)
      = some s2) :
    s1.notes = s.notes.set i
      { target with title := title, contentFilePath := contentFilePath
                    contentFileName := contentFileName }
    ∧ s2.notes = s.notes.set i { target with stackIds := stackIds }
    ∧ (∀ sel, s.selectedNote = some sel → sel.id = n.id →
        s1.selectedNote = some
          { sel with title := title, contentFilePath := contentFilePath
                     contentFileName := contentFileName }
        ∧ s2.selectedNote = some { sel with stackIds := stackIds })
    ∧ (∀ sel, s.selectedNote = some sel → sel.id ≠ n.id →
        s1.selectedNote = some sel ∧ s2.selectedNote = some sel)
    ∧ (s.selectedNote = none → s1.selectedNote = none ∧ s2.selectedNote = none) := by
  obtain ⟨target', htarget', htid⟩ := getIndexOfNote_spec hidx
  rw [htarget] at htarget'
  injection htarget' with hte
  subst hte
  simp only [noteCollectionReducer] at h1 h2
  rw [hidx, withNoteUpdate_spec htarget] at h1 h2
  have hcond := isIndexOfNote_eval htarget
  cases hselcase : s.selectedNote with
  | none =>
      rw [hselcase] at hcond
      rw [hcond] at h1 h2
      simp only [Bool.false_eq_true, if_false] at h1 h2
      obtain ⟨v1, hf1, rfl⟩ := withF_eq_some h1
      obtain ⟨v2, hf2, rfl⟩ := withF_eq_some h2
      exact ⟨rfl, rfl, (fun sel hsel => nomatch hsel), (fun sel hsel => nomatch hsel),
        fun _ => ⟨hselcase, hselcase⟩⟩
  | some sel0 =>
      rw [hselcase] at hcond
      by_cases hid : sel0.id = n.id
      · have hbeq : (target.id == sel0.id) = true := by
          rw [htid, hid]
          exact beq_self_eq_true _
        have hcondtrue : isIndexOfNoteIsSelectedNote s (some i) = true := by
          rw [hcond]
          exact hbeq
        rw [hcondtrue, if_pos rfl] at h1 h2
        obtain ⟨v1, hf1, rfl⟩ := withF_eq_some h1
        obtain ⟨v2, hf2, rfl⟩ := withF_eq_some h2
        refine ⟨rfl, rfl, ?_, ?_, ?_⟩
        · intro sel hsel hselid
          injection hsel with hsel
          subst hsel
          constructor
          · show Option.map (fun selected => selected.applyPatch
                { title := some title, contentFilePath := some contentFilePath
                  contentFileName := some contentFileName, stackIds := none })
              s.selectedNote = _
            rw [hselcase]
            rfl
          · show Option.map (fun selected => selected.applyPatch
                { title := none, contentFilePath := none, contentFileName := none
                  stackIds := some stackIds })
              s.selectedNote = _
            rw [hselcase]
            rfl
        · intro sel hsel hne
          injection hsel with hsel
          subst hsel
          exact absurd hid hne
        · exact fun hnone => nomatch hnone
      · have hbeq : (target.id == sel0.id) = false := by
          rw [htid]
          simp only [beq_eq_false_iff_ne, ne_eq]
          intro hcontra
          exact hid hcontra.symm
        have hcondfalse : isIndexOfNoteIsSelectedNote s (some i) = false := by
          rw [hcond]
          exact hbeq
        rw [hcondfalse] at h1 h2
        simp only [Bool.false_eq_true, if_false] at h1 h2
        obtain ⟨v1, hf1, rfl⟩ := withF_eq_some h1
        obtain ⟨v2, hf2, rfl⟩ := withF_eq_some h2
        refine ⟨rfl, rfl, ?_, ?_, ?_⟩
        · intro sel hsel hselid
          injection hsel with hsel
          subst hsel
          exact absurd hselid hid
        · intro sel hsel hne
          injection hsel with hsel
          subst hsel
          exact ⟨hselcase, hselcase⟩
        · exact fun hnone => nomatch hnone

/-- State holding `demoNote` and `demoNoteB`, with `demoNoteB` selected. -/
def twoNoteSelectedBState : NoteCollectionState :=
  { createNoteCollectionInitialState with
    notes := [demoNote, demoNoteB]
    filteredAndSortedNotes := [demoNoteB, demoNote]
    selectedNote := some demoNoteB }

/-- Result of retitling `demoNote` inside `twoNoteSelectedBState`. -/
def c6TitleResult : NoteCollectionState :=
  { createNoteCollectionInitialState with
    notes := [{ demoNote with title := "T", contentFilePath := "p", contentFileName := "f" },
      demoNoteB]
    filteredAndSortedNotes :=
      [demoNoteB, { demoNote with title := "T", contentFilePath := "p", contentFileName := "f" }]
    selectedNote := some demoNoteB }

/-- Result of restacking `demoNote` inside `twoNoteSelectedBState`. -/
def c6StacksResult : NoteCollectionState :=
  { createNoteCollectionInitialState with
    notes := [{ demoNote with stackIds := ["s1"] }, demoNoteB]
    filteredAndSortedNotes := [demoNoteB, { demoNote with stackIds := ["s1"] }]
    selectedNote := some demoNoteB }

theorem C6_patch_semantics_witness :
    c6TitleResult.notes = twoNoteSelectedBState.notes.set 0
        { demoNote with title := "T", contentFilePath := "p", contentFileName := "f" }
    ∧ c6StacksResult.notes
      = twoNoteSelectedBState.notes.set 0 { demoNote with stackIds := ["s1"] }
    ∧ (∀ sel, twoNoteSelectedBState.selectedNote = some sel → sel.id = demoNote.id →
        c6TitleResult.selectedNote = some
          { sel with title := "T", contentFilePath := "p", contentFileName := "f" }
        ∧ c6StacksResult.selectedNote = some { sel with stackIds := ["s1"] })
    ∧ (∀ sel, twoNoteSelectedBState.selectedNote = some sel → sel.id ≠ demoNote.id →
        c6TitleResult.selectedNote = some sel ∧ c6StacksResult.selectedNote = some sel)
    ∧ (twoNoteSelectedBState.selectedNote = none →
        c6TitleResult.selectedNote = none ∧ c6StacksResult.selectedNote = none) :=
  C6_patch_semantics twoNoteSelectedBState demoNote demoNote 0 "T" "p" "f" ["s1"]
    c6TitleResult c6StacksResult (by decide) (by decide) (by decide) (by decide)

/-! ## C10: duplicate ids are patched and deleted first-match-only -/

/-- C10: when `notes` holds several entries with the payload id (first
match at index `i` holding `target`, and a later duplicate at index `j`),
ChangeNoteTitle and ChangeNoteStacks patch only the entry at `i`, and
DeleteNote removes only the entry at `i`; the later duplicate survives,
so the id still occurs after the deletion. -/
theorem C10_duplicates_first_match_only (s : NoteCollectionState)
    (n target dup : NoteItem) (i j : Nat)
    (title contentFilePath contentFileName : String) (stackIds : List String)
    (s1 s2 s3 : NoteCollectionState)
    (hidx : getIndexOfNote s n = some i)
    (htarget : s.notes[i]? = some target)
    (hij : i < j)
    (hdup : s.notes[j]? = some dup)
    (hdupid : dup.id = n.id)
    (h1 : noteCollectionReducer s
      (NoteCollectionAction.changeNoteTitle n title contentFilePath contentFileName)
      = some s1)
    (h2 : noteCollectionReducer s (NoteCollectionAction.changeNoteStacks n stackIds)
      = some s2)
    (h3 : noteCollectionReducer s (NoteCollectionAction.deleteNote n) = some s3) :
    s1.notes = s.notes.set i
      { target with title := title, contentFilePath := contentFilePath
                    contentFileName := contentFileName }
    ∧ s2.notes = s.notes.set i { target with stackIds := stackIds }
    ∧ s3.notes = s.notes.eraseIdx i
    ∧ n.id ∈ noteIds s3.notes := by
  simp only [noteCollectionReducer] at h1 h2 h3
  rw [hidx] at h1 h2 h3
  obtain ⟨v1, hf1, rfl⟩ := withF_eq_some h1
  obtain ⟨v2, hf2, rfl⟩ := withF_eq_some h2
  obtain ⟨v3, hf3, rfl⟩ := withF_eq_some h3
  refine ⟨?_, ?_, ?_, ?_⟩
  · show (withNoteUpdate s (some i) _).notes = _
    exact withNoteUpdate_notes htarget _
  · show (withNoteUpdate s (some i) _).notes = _
    exact withNoteUpdate_notes htarget _
  · show (withNoteDelete s (some i)).notes = _
    exact withNoteDelete_notes htarget
  · show n.id ∈ noteIds (withNoteDelete s (some i)).notes
    rw [withNoteDelete_notes htarget]
    exact hdupid ▸ mem_noteIds_eraseIdx_of_later hij hdup

/-- State holding two copies of `demoNote`, nothing selected. -/
def dupUnselectedState : NoteCollectionState :=
  { createNoteCollectionInitialState with
    notes := [demoNote, demoNote]
    filteredAndSortedNotes := [demoNote, demoNote] }

/-- Result of retitling inside `dupUnselectedState`. -/
def c10TitleResult : NoteCollectionState :=
  { createNoteCollectionInitialState with
    notes := [{ demoNote with title := "T", contentFilePath := "p", contentFileName := "f" },
      demoNote]
    filteredAndSortedNotes :=
      [{ demoNote with title := "T", contentFilePath := "p", contentFileName := "f" },
        demoNote] }

/-- Result of restacking inside `dupUnselectedState`. -/
def c10StacksResult : NoteCollectionState :=
  { createNoteCollectionInitialState with
    notes := [{ demoNote with stackIds := ["s1"] }, demoNote]
    filteredAndSortedNotes := [{ demoNote with stackIds := ["s1"] }, demoNote] }

/-- Result of deleting inside `dupUnselectedState`. -/
def c10DeleteResult : NoteCollectionState :=
  { createNoteCollectionInitialState with
    notes := [demoNote]
    filteredAndSortedNotes := [demoNote] }

theorem C10_duplicates_first_match_only_witness :
    c10TitleResult.notes = dupUnselectedState.notes.set 0
      { demoNote with title := "T", contentFilePath := "p", contentFileName := "f" }
    ∧ c10StacksResult.notes
      = dupUnselectedState.notes.set 0 { demoNote with stackIds := ["s1"] }
    ∧ c10DeleteResult.notes = dupUnselectedState.notes.eraseIdx 0
    ∧ demoNote.id ∈ noteIds c10DeleteResult.notes :=
  C10_duplicates_first_match_only dupUnselectedState demoNote demoNote demoNote 0 1
    "T" "p" "f" ["s1"] c10TitleResult c10StacksResult c10DeleteResult
    (by decide) (by decide) (by decide) (by decide) (by decide)
    (by decide) (by decide) (by decide)

/-! ## C2: uniqueness of note ids -/

lemma set_self_of_getElem? {α : Type _} {l : List α} {i : Nat} {v : α}
    (h : l[i]? = some v) : l.set i v = l := by
  obtain ⟨hlen, rfl⟩ := List.getElem?_eq_some_iff.mp h
  apply List.ext_getElem?
  intro j
  rw [List.getElem?_set]
  split
  · next hij =>
      subst hij
      exact (List.getElem?_eq_getElem hlen).symm
  · rfl

/-- Precondition under which a command cannot create a duplicate id:
LoadComplete payloads carry pairwise distinct ids and AddNote payloads
carry an id not already present; every other command is unrestricted. -/
def UniqueOkAction (s : NoteCollectionState) (a : NoteCollectionAction) : Prop :=
  match a with
  | NoteCollectionAction.loadCollectionComplete notes => (noteIds notes).Nodup
  | NoteCollectionAction.addNote note => note.id ∉ noteIds s.notes
  | _ => True

/-- States reachable through command sequences whose LoadComplete and
AddNote payloads respect `UniqueOkAction`. -/
inductive UniqueReachable : NoteCollectionState → Prop
  | init : UniqueReachable createNoteCollectionInitialState
  | step {s : NoteCollectionState} {a : NoteCollectionAction} {s' : NoteCollectionState} :
      UniqueReachable s → UniqueOkAction s a →
      noteCollectionReducer s a = some s' → UniqueReachable s'

lemma noteIds_applyPatch (note : NoteItem) (patch : NotePatch) :
    (note.applyPatch patch).id = note.id := rfl

lemma nodup_withNoteUpdate {s : NoteCollectionState} (index : Option Nat)
    (patch : NotePatch) (hnd : (noteIds s.notes).Nodup) :
    (noteIds (withNoteUpdate s index patch).notes).Nodup := by
  cases index with
  | none => exact hnd
  | some i =>
      cases htarget : s.notes[i]? with
      | none =>
          unfold withNoteUpdate
          simp only []
          rw [htarget]
          exact hnd
      | some target =>
          rw [withNoteUpdate_notes htarget]
          have hids : noteIds (s.notes.set i (target.applyPatch patch)) = noteIds s.notes := by
            unfold noteIds
            rw [List.map_set]
            rw [noteIds_applyPatch]
            apply set_self_of_getElem?
            obtain ⟨hlen, hv⟩ := List.getElem?_eq_some_iff.mp htarget
            rw [List.getElem?_map, List.getElem?_eq_getElem hlen, hv]
            rfl
          rw [hids]
          exact hnd

lemma nodup_withNoteDelete {s : NoteCollectionState} (index : Option Nat)
    (hnd : (noteIds s.notes).Nodup) :
    (noteIds (withNoteDelete s index).notes).Nodup := by
  cases index with
  | none => exact hnd
  | some i =>
      cases htarget : s.notes[i]? with
      | none =>
          unfold withNoteDelete
          simp only []
          rw [htarget]
          exact hnd
      | some target =>
          rw [withNoteDelete_notes htarget]
          exact ((List.eraseIdx_sublist s.notes i).map NoteItem.id).nodup hnd

lemma reducer_preserves_nodup {s s' : NoteCollectionState} {a : NoteCollectionAction}
    (hnd : (noteIds s.notes).Nodup) (hok : UniqueOkAction s a)
    (h : noteCollectionReducer s a = some s') :
    (noteIds s'.notes).Nodup := by
  cases a with
  | loadCollection =>
      simp only [noteCollectionReducer, Option.some.injEq] at h
      subst h; exact hnd
  | changeViewMode viewMode =>
      simp only [noteCollectionReducer, Option.some.injEq] at h
      subst h; exact hnd
  | selectNote note =>
      simp only [noteCollectionReducer, Option.some.injEq] at h
      subst h; exact hnd
  | deselectNote =>
      simp only [noteCollectionReducer, Option.some.injEq] at h
      subst h; exact hnd
  | updateContribution contribution =>
      simp only [noteCollectionReducer, Option.some.injEq] at h
      subst h; exact hnd
  | loadCollectionComplete notes =>
      obtain ⟨v, hf, rfl⟩ := withF_eq_some h
      exact hok
  | selectDateFilter date =>
      obtain ⟨v, hf, rfl⟩ := withF_eq_some h
      exact hnd
  | selectMonthFilter date =>
      obtain ⟨v, hf, rfl⟩ := withF_eq_some h
      exact hnd
  | changeSortOrder sortBy =>
      obtain ⟨v, hf, rfl⟩ := withF_eq_some h
      exact hnd
  | changeSortDirection sortDirection =>
      obtain ⟨v, hf, rfl⟩ := withF_eq_some h
      exact hnd
  | addNote note =>
      obtain ⟨v, hf, rfl⟩ := withF_eq_some h
      show (noteIds (s.notes ++ [note])).Nodup
      unfold noteIds
      rw [List.map_append, List.nodup_append]
      exact ⟨hnd, List.nodup_singleton _, List.disjoint_singleton.mpr hok⟩
  | changeNoteTitle note title contentFilePath contentFileName =>
      obtain ⟨v, hf, rfl⟩ := withF_eq_some h
      exact nodup_withNoteUpdate _ _ hnd
  | deleteNote note =>
      obtain ⟨v, hf, rfl⟩ := withF_eq_some h
      exact nodup_withNoteDelete _ hnd
  | changeNoteStacks note newStackIds =>
      obtain ⟨v, hf, rfl⟩ := withF_eq_some h
      exact nodup_withNoteUpdate _ _ hnd

/-- C2 counterexample: issuing AddNote twice with the same note (an
arbitrary command sequence from the initial state) succeeds and leaves
two entries of `notes` with the same id, so the claimed invariant fails
for unrestricted payloads. -/
theorem C2_counterexample :
    (applyActions createNoteCollectionInitialState
        [NoteCollectionAction.addNote demoNote, NoteCollectionAction.addNote demoNote]).map
      (fun s => decide (noteIds s.notes).Nodup) = some false := by
  decide

/-- C2 (amended): along every command sequence whose LoadComplete
payloads carry pairwise distinct ids and whose AddNote payloads carry an
id not already in `notes`, no two entries of `notes` share an id.  The
reducer itself never deduplicates, so the unrestricted claim fails. -/
theorem C2_amended_unique_ids (s : NoteCollectionState) (h : UniqueReachable s) :
    (noteIds s.notes).Nodup := by
  induction h with
  | init => exact List.nodup_nil
  | step hprev hok hr ih => exact reducer_preserves_nodup ih hok hr

/-- State resulting from adding `demoNote` to the initial state. -/
def oneNoteState : NoteCollectionState :=
  { createNoteCollectionInitialState with
    notes := [demoNote], filteredAndSortedNotes := [demoNote] }

theorem C2_amended_unique_ids_witness : (noteIds oneNoteState.notes).Nodup :=
  C2_amended_unique_ids oneNoteState
    (@UniqueReachable.step createNoteCollectionInitialState
      (NoteCollectionAction.addNote demoNote) oneNoteState
      UniqueReachable.init
      (show demoNote.id ∉ noteIds createNoteCollectionInitialState.notes by decide)
      (by decide))

/-! ## C3: selection consistency -/

/-- Boolean form of the selection-consistency invariant: either nothing
is selected, or every entry of `notes` carrying the selected id equals
the selected copy field by field. -/
def SelectionConsistentB (s : NoteCollectionState) : Bool :=
  match s.selectedNote with
  | none => true
  | some sel => s.notes.all fun m => m.id != sel.id || m == sel

/-- Propositional form of the selection-consistency invariant. -/
def SelCons (s : NoteCollectionState) : Prop :=
  ∀ sel, s.selectedNote = some sel → ∀ m ∈ s.notes, m.id = sel.id → m = sel

/-- Precondition under which a command cannot plant a copy diverging
from an entry of `notes` with the same id: LoadComplete and AddNote
payloads keep ids unique and agree with the current selection on its id,
and SelectNote payloads agree with the entries of `notes` on their id. -/
def SelectionOkAction (s : NoteCollectionState) (a : NoteCollectionAction) : Prop :=
  match a with
  | NoteCollectionAction.loadCollectionComplete notes =>
      (noteIds notes).Nodup
      ∧ ∀ sel, s.selectedNote = some sel → ∀ m ∈ notes, m.id = sel.id → m = sel
  | NoteCollectionAction.addNote note =>
      note.id ∉ noteIds s.notes
      ∧ ∀ sel, s.selectedNote = some sel → note.id = sel.id → note = sel
  | NoteCollectionAction.selectNote note =>
      ∀ m ∈ s.notes, m.id = note.id → m = note
  | _ => True

/-- States reachable through command sequences respecting
`SelectionOkAction`. -/
inductive SelectionSafeReachable : NoteCollectionState → Prop
  | init : SelectionSafeReachable createNoteCollectionInitialState
  | step {s : NoteCollectionState} {a : NoteCollectionAction} {s' : NoteCollectionState} :
      SelectionSafeReachable s → SelectionOkAction s a →
      noteCollectionReducer s a = some s' → SelectionSafeReachable s'

lemma selectionOk_uniqueOk {s : NoteCollectionState} {a : NoteCollectionAction}
    (h : SelectionOkAction s a) : UniqueOkAction s a := by
  cases a with
  | loadCollectionComplete notes => exact h.1
  | addNote note => exact h.1
  | loadCollection => trivial
  | selectDateFilter date => trivial
  | selectMonthFilter date => trivial
  | changeSortOrder sortBy => trivial
  | changeSortDirection sortDirection => trivial
  | changeViewMode viewMode => trivial
  | selectNote note => trivial
  | deselectNote => trivial
  | updateContribution contribution => trivial
  | changeNoteTitle note title contentFilePath contentFileName => trivial
  | deleteNote note => trivial
  | changeNoteStacks note newStackIds => trivial

lemma mem_set_elim {α : Type _} {l : List α} {i : Nat} {x m : α}
    (hm : m ∈ l.set i x) :
    m = x ∨ ∃ j, j ≠ i ∧ ∃ hj : j < l.length, l[j] = m := by
  rw [List.mem_iff_getElem?] at hm
  obtain ⟨j, hj⟩ := hm
  rw [List.getElem?_set] at hj
  by_cases hij : i = j
  · rw [if_pos hij] at hj
    split at hj
    · exact Or.inl (Option.some.inj hj).symm
    · exact nomatch hj
  · rw [if_neg hij] at hj
    exact Or.inr ⟨j, fun hc => hij hc.symm, List.getElem?_eq_some_iff.mp hj⟩

lemma id_getElem_inj_of_nodup {notes : List NoteItem}
    (hnd : (noteIds notes).Nodup) {i j : Nat}
    (hi : i < notes.length) (hj : j < notes.length)
    (hid : notes[i].id = notes[j].id) : i = j := by
  have hi2 : i < (noteIds notes).length := by simpa [noteIds] using hi
  have hj2 : j < (noteIds notes).length := by simpa [noteIds] using hj
  have h1 : (noteIds notes).get ⟨i, hi2⟩ = (noteIds notes).get ⟨j, hj2⟩ := by
    simp only [noteIds, List.get_eq_getElem, List.getElem_map]
    exact hid
  exact congrArg Fin.val (List.nodup_iff_injective_get.mp hnd h1)

lemma withNoteDelete_oob {s : NoteCollectionState} {i : Nat}
    (h : s.notes[i]? = none) : withNoteDelete s (some i) = s := by
  unfold withNoteDelete
  simp only []
  rw [h]

lemma selCons_of {s : NoteCollectionState} (t : NoteCollectionState)
    (hsel : t.selectedNote = s.selectedNote) (hnotes : t.notes = s.notes)
    (hsc : SelCons s) : SelCons t := by
  intro sel hs m hm hid
  rw [hsel] at hs
  rw [hnotes] at hm
  exact hsc sel hs m hm hid

lemma target_mem_of_getElem? {s : NoteCollectionState} {i : Nat} {target : NoteItem}
    (htarget : s.notes[i]? = some target) : target ∈ s.notes := by
  obtain ⟨hl, hv⟩ := List.getElem?_eq_some_iff.mp htarget
  exact hv ▸ List.getElem_mem hl

lemma selCons_withNoteUpdate {s : NoteCollectionState} {note : NoteItem}
    (hnd : (noteIds s.notes).Nodup) (hsc : SelCons s) (patch : NotePatch) :
    SelCons (withNoteUpdate s (getIndexOfNote s note) patch) := by
  cases hidx : getIndexOfNote s note with
  | none =>
      unfold withNoteUpdate
      simp only []
      exact hsc
  | some i =>
      obtain ⟨target, htarget, htid⟩ := getIndexOfNote_spec hidx
      obtain ⟨hilen, hiv⟩ := List.getElem?_eq_some_iff.mp htarget
      rw [withNoteUpdate_spec htarget]
      have hcond := isIndexOfNote_eval htarget
      split
      · next hiftrue =>
          intro sel hsel m hm hid
          cases hselcase : s.selectedNote with
          | none =>
              rw [hselcase] at hcond
              rw [hcond] at hiftrue
              exact nomatch hiftrue
          | some sel0 =>
              rw [hselcase] at hcond
              have hbeq : (target.id == sel0.id) = true := hcond.symm.trans hiftrue
              have hts : target.id = sel0.id := by simpa using hbeq
              have hteq : target = sel0 :=
                hsc sel0 hselcase target (target_mem_of_getElem? htarget) hts
              have hsel' : Option.map
                  (fun selected => selected.applyPatch patch) s.selectedNote
                  = some sel := hsel
              rw [hselcase] at hsel'
              simp only [Option.map_some', Option.some.injEq] at hsel'
              rcases mem_set_elim
                  (show m ∈ s.notes.set i (target.applyPatch patch) from hm) with
                rfl | ⟨j, hne, hj, hjv⟩
              · rw [← hsel', hteq]
              · exfalso
                have hjid : s.notes[j].id = s.notes[i].id := by
                  rw [hjv, hiv]
                  rw [← hteq] at hsel'
                  rw [hid, ← hsel']
                  rfl
                exact hne (id_getElem_inj_of_nodup hnd hj hilen hjid)
      · next hiffalse =>
          intro sel hsel m hm hid
          have hsel' : s.selectedNote = some sel := hsel
          rw [hsel'] at hcond
          have hcf : isIndexOfNoteIsSelectedNote s (some i) = false := by
            simpa using hiffalse
          have hbeq : (target.id == sel.id) = false := hcond.symm.trans hcf
          have hts : target.id ≠ sel.id := by simpa using hbeq
          rcases mem_set_elim
              (show m ∈ s.notes.set i (target.applyPatch patch) from hm) with
            rfl | ⟨j, hne, hj, hjv⟩
          · exact absurd hid hts
          · exact hsc sel hsel' m (hjv ▸ List.getElem_mem hj) hid

lemma reducer_preserves_selCons {s s' : NoteCollectionState} {a : NoteCollectionAction}
    (hnd : (noteIds s.notes).Nodup) (hsc : SelCons s) (hok : SelectionOkAction s a)
    (h : noteCollectionReducer s a = some s') : SelCons s' := by
  cases a with
  | loadCollection =>
      simp only [noteCollectionReducer, Option.some.injEq] at h
      subst h
      exact selCons_of _ rfl rfl hsc
  | changeViewMode viewMode =>
      simp only [noteCollectionReducer, Option.some.injEq] at h
      subst h
      exact selCons_of _ rfl rfl hsc
  | updateContribution contribution =>
      simp only [noteCollectionReducer, Option.some.injEq] at h
      subst h
      exact selCons_of _ rfl rfl hsc
  | deselectNote =>
      simp only [noteCollectionReducer, Option.some.injEq] at h
      subst h
      exact fun sel hsel => nomatch hsel
  | selectNote note =>
      simp only [noteCollectionReducer, Option.some.injEq] at h
      subst h
      intro sel hsel m hm hid
      injection hsel with hsel
      subst hsel
      exact hok m hm hid
  | loadCollectionComplete notes =>
      obtain ⟨v, hf, rfl⟩ := withF_eq_some h
      intro sel hsel m hm hid
      exact hok.2 sel hsel m hm hid
  | selectDateFilter date =>
      obtain ⟨v, hf, rfl⟩ := withF_eq_some h
      exact selCons_of _ rfl rfl hsc
  | selectMonthFilter date =>
      obtain ⟨v, hf, rfl⟩ := withF_eq_some h
      exact selCons_of _ rfl rfl hsc
  | changeSortOrder sortBy =>
      obtain ⟨v, hf, rfl⟩ := withF_eq_some h
      exact selCons_of _ rfl rfl hsc
  | changeSortDirection sortDirection =>
      obtain ⟨v, hf, rfl⟩ := withF_eq_some h
      exact selCons_of _ rfl rfl hsc
  | addNote note =>
      obtain ⟨v, hf, rfl⟩ := withF_eq_some h
      intro sel hsel m hm hid
      have hm' : m ∈ s.notes ++ [note] := hm
      rw [List.mem_append] at hm'
      cases hm' with
      | inl hm' => exact hsc sel hsel m hm' hid
      | inr hm' =>
          rw [List.mem_singleton] at hm'
          subst hm'
          exact hok.2 sel hsel hid
  | deleteNote note =>
      obtain ⟨v, hf, rfl⟩ := withF_eq_some h
      cases hidx : getIndexOfNote s note with
      | none =>
          exact selCons_of _ rfl rfl hsc
      | some i =>
          cases htarget : s.notes[i]? with
          | none =>
              rw [withNoteDelete_oob htarget]
              exact selCons_of _ rfl rfl hsc
          | some target =>
              rw [withNoteDelete_spec htarget]
              split
              · exact fun sel hsel => nomatch hsel
              · intro sel hsel m hm hid
                exact hsc sel hsel m
                  (List.Sublist.mem
                    (show m ∈ s.notes.eraseIdx i from hm)
                    (List.eraseIdx_sublist s.notes i)) hid
  | changeNoteTitle note title contentFilePath contentFileName =>
      obtain ⟨v, hf, rfl⟩ := withF_eq_some h
      intro sel hsel m hm hid
      exact selCons_withNoteUpdate hnd hsc _ sel hsel m hm hid
  | changeNoteStacks note newStackIds =>
      obtain ⟨v, hf, rfl⟩ := withF_eq_some h
      intro sel hsel m hm hid
      exact selCons_withNoteUpdate hnd hsc _ sel hsel m hm hid

lemma selectionConsistentB_of_selCons {s : NoteCollectionState} (hsc : SelCons s) :
    SelectionConsistentB s = true := by
  unfold SelectionConsistentB
  cases hsel : s.selectedNote with
  | none => rfl
  | some sel =>
      rw [List.all_eq_true]
      intro m hm
      by_cases hid : m.id = sel.id
      · have hms : m = sel := hsc sel hsel m hm hid
        subst hms
        simp
      · simp [hid]

/-- C3 counterexample: load a note, select a divergent copy carrying the
same id, then run a mutating command (ChangeNoteStacks) on that id.  The
patch is mirrored, but the title divergence introduced by SelectNote
persists: the selected id occurs in `notes` while the fields differ even
immediately after the last mutating command affecting that id. -/
theorem C3_counterexample :
    (applyActions createNoteCollectionInitialState
        [NoteCollectionAction.loadCollectionComplete [demoNote],
          NoteCollectionAction.selectNote demoNoteStale,
          NoteCollectionAction.changeNoteStacks demoNote ["s1"]]).map
      SelectionConsistentB = some false := by
  decide

/-- C3 (amended): if every SelectNote payload agrees with the entries of
`notes` carrying its id, and LoadComplete and AddNote payloads keep ids
unique and never introduce an entry diverging from the current selection
on its id, then in every reachable state the selection is consistent:
either the selected id is absent from `notes`, or every entry carrying it
equals the selected copy field by field (mutations are mirrored into the
selection, and deleting the selected entry clears it). -/
theorem C3_amended_selection_consistent (s : NoteCollectionState)
    (h : SelectionSafeReachable s) : SelectionConsistentB s = true := by
  suffices hinv : (noteIds s.notes).Nodup ∧ SelCons s from
    selectionConsistentB_of_selCons hinv.2
  induction h with
  | init => exact ⟨List.nodup_nil, fun sel hsel => nomatch hsel⟩
  | step hprev hok hr ih =>
      exact ⟨reducer_preserves_nodup ih.1 (selectionOk_uniqueOk hok) hr,
        reducer_preserves_selCons ih.1 ih.2 hok hr⟩

/-- State with `demoNote` loaded and selected. -/
def loadedSelectedState : NoteCollectionState :=
  { createNoteCollectionInitialState with
    loaded := true
    notes := [demoNote]
    filteredAndSortedNotes := [demoNote]
    selectedNote := some demoNote }

theorem C3_amended_selection_consistent_witness :
    SelectionConsistentB loadedSelectedState = true :=
  C3_amended_selection_consistent loadedSelectedState
    (@SelectionSafeReachable.step
      { createNoteCollectionInitialState with
        loaded := true, notes := [demoNote], filteredAndSortedNotes := [demoNote] }
      (NoteCollectionAction.selectNote demoNote) loadedSelectedState
      (@SelectionSafeReachable.step createNoteCollectionInitialState
        (NoteCollectionAction.loadCollectionComplete [demoNote])
        { createNoteCollectionInitialState with
          loaded := true, notes := [demoNote], filteredAndSortedNotes := [demoNote] }
        SelectionSafeReachable.init
        ⟨by decide, fun sel hsel => nomatch hsel⟩
        (by decide))
      (show ∀ m ∈ [demoNote], m.id = demoNote.id → m = demoNote from
        fun m hm _ => List.mem_singleton.mp hm)
      (by decide))

/-! ## C7: filter selection commands -/

/-- C7: applying SelectMonthFilter yields a state with
`filterBy = BY_MONTH`, `selectedMonth` taken from the payload date, and
`selectedDate = null`; applying SelectDateFilter yields a state with
`filterBy = BY_DATE`, `selectedDate` taken from the payload date, and
`selectedMonth` left untouched (both commands always succeed). -/
theorem C7_filter_selection (s : NoteCollectionState) (date : Int) :
    (noteCollectionReducer s (NoteCollectionAction.selectMonthFilter date)).map
        (fun t => (t.filterBy, t.selectedMonth, t.selectedDate))
      = some (NoteCollectionFilterBy.BY_MONTH,
          some { year := getFullYear date, month := getMonth date }, none)
  ∧ (noteCollectionReducer s (NoteCollectionAction.selectDateFilter date)).map
        (fun t => (t.filterBy, t.selectedDate, t.selectedMonth))
      = some (NoteCollectionFilterBy.BY_DATE,
          some { year := getFullYear date, month := getMonth date, date := getDate date },
          s.selectedMonth) :=
  ⟨rfl, rfl⟩

/-! ## C8: inconsistent filter configuration fails fast -/

/-- C8: recomputing the derived view on a state whose `filterBy` is
BY_MONTH while `selectedMonth` is unset (or BY_DATE while `selectedDate`
is unset) fails with an error surfaced to the caller (the `none` result
modelling the thrown TypeError), rather than silently passing or
rejecting every note. -/
theorem C8_inconsistent_filter_fails (s : NoteCollectionState)
    (h : (s.filterBy = NoteCollectionFilterBy.BY_MONTH ∧ s.selectedMonth = none)
      ∨ (s.filterBy = NoteCollectionFilterBy.BY_DATE ∧ s.selectedDate = none)) :
    withFilteredAndSortedNotes s = none := by
  unfold withFilteredAndSortedNotes filteredNotesOf
  rcases h with ⟨h1, h2⟩ | ⟨h1, h2⟩ <;> rw [h1, h2] <;> rfl

theorem C8_inconsistent_filter_fails_witness :
    withFilteredAndSortedNotes
      { createNoteCollectionInitialState with
        filterBy := NoteCollectionFilterBy.BY_MONTH } = none :=
  C8_inconsistent_filter_fails _ (Or.inl ⟨rfl, rfl⟩)

/-! ## C9: LoadComplete replaces notes but never touches the selection -/

/-- C9: whenever LoadComplete returns a state, that state carries the
payload as `notes`, has `loaded = true` and `loading = false`, has a
freshly recomputed derived view, and keeps `selectedNote` exactly as it
was, even when no entry of the new `notes` carries its id. -/
theorem C9_load_complete_keeps_selection
    (s : NoteCollectionState) (notes : List NoteItem) (s' : NoteCollectionState)
    (h : noteCollectionReducer s (NoteCollectionAction.loadCollectionComplete notes)
      = some s') :
    s'.notes = notes ∧ s'.loaded = true ∧ s'.loading = false
      ∧ s'.selectedNote = s.selectedNote
      ∧ (filteredNotesOf s').map (fun ns => sortNotes s'.sortBy s'.sortDirection ns)
          = some s'.filteredAndSortedNotes := by
  have hfresh : DerivedFresh s' := derivedFresh_of_withF h
  obtain ⟨ns, hfn, rfl⟩ := withF_eq_some h
  exact ⟨rfl, rfl, rfl, rfl, hfresh⟩

theorem C9_load_complete_keeps_selection_witness :
    ({ createNoteCollectionInitialState with
        loaded := true, notes := [demoNote], filteredAndSortedNotes := [demoNote]
        selectedNote := some demoNoteB } : NoteCollectionState).notes = [demoNote]
    ∧ ({ createNoteCollectionInitialState with
        loaded := true, notes := [demoNote], filteredAndSortedNotes := [demoNote]
        selectedNote := some demoNoteB } : NoteCollectionState).loaded = true
    ∧ ({ createNoteCollectionInitialState with
        loaded := true, notes := [demoNote], filteredAndSortedNotes := [demoNote]
        selectedNote := some demoNoteB } : NoteCollectionState).loading = false
    ∧ ({ createNoteCollectionInitialState with
        loaded := true, notes := [demoNote], filteredAndSortedNotes := [demoNote]
        selectedNote := some demoNoteB } : NoteCollectionState).selectedNote
        = ({ createNoteCollectionInitialState with
            selectedNote := some demoNoteB } : NoteCollectionState).selectedNote
    ∧ (filteredNotesOf { createNoteCollectionInitialState with
        loaded := true, notes := [demoNote], filteredAndSortedNotes := [demoNote]
        selectedNote := some demoNoteB }).map
        (fun ns =>
          sortNotes
            ({ createNoteCollectionInitialState with
              loaded := true, notes := [demoNote], filteredAndSortedNotes := [demoNote]
              selectedNote := some demoNoteB } : NoteCollectionState).sortBy
            ({ createNoteCollectionInitialState with
              loaded := true, notes := [demoNote], filteredAndSortedNotes := [demoNote]
              selectedNote := some demoNoteB } : NoteCollectionState).sortDirection ns)
        = some ({ createNoteCollectionInitialState with
            loaded := true, notes := [demoNote], filteredAndSortedNotes := [demoNote]
            selectedNote := some demoNoteB } : NoteCollectionState).filteredAndSortedNotes :=
  C9_load_complete_keeps_selection
    { createNoteCollectionInitialState with selectedNote := some demoNoteB }
    [demoNote] _ (by decide)

end GeeksDiary
